import Mathlib

/-
Shallow embedding of src/app/projects/page.tsx (Timesheet-clean repository).

The page manages project visibility and membership for a multi-tenant org:
a visibility effect loads the org profile directory and the project list
(privileged roles see all org projects; contractors see only projects joined
from their active membership rows), membership is loaded and mutated per
project, and project creation is gated to privileged roles.

Modelling conventions:
- Nullable store columns become Option types; the tri-state active flag
  is Option Bool, where only some false counts as inactive.
- Asynchronous store calls become explicit result parameters of type
  Except String, and the store itself is a DB record of row lists; select,
  insert and update are modelled as pure functions over DB.
- React state becomes the PageState record; each handler becomes a state
  transition function; the cancelled flag of the visibility effect becomes
  explicit Bool parameters at the two write-back points.
- The membersByProject record object becomes an association list, with the
  JavaScript spread update modelled by recordSet (replace in place when the
  key exists, append otherwise).
- JavaScript locale string comparison (localeCompare) and store-side text
  ordering are modelled as code-point order on String.
-/

namespace ProjectsPage

/-- Viewer roles, from the Role type in the source. -/
inductive Role where
  | admin
  | manager
  | contractor
deriving DecidableEq, Repr

/-- A project row, from the ProjectRow type in the source. -/
structure ProjectRow where
  id : String
  org_id : String
  name : String
  parent_id : Option String
  is_active : Option Bool
deriving DecidableEq, Repr

/-- A profile row as selected by the page (org_id projected away). -/
structure ProfileRow where
  id : String
  full_name : Option String
  role : Role
  is_active : Option Bool
  manager_id : Option String
deriving DecidableEq, Repr

/-- A membership row as selected by the page (org_id projected away). -/
structure MemberRow where
  id : String
  project_id : String
  profile_id : String
  is_active : Option Bool
deriving DecidableEq, Repr

/-- A profiles-table row in the store (includes org_id). -/
structure ProfileTableRow where
  id : String
  org_id : String
  full_name : Option String
  role : Role
  is_active : Option Bool
  manager_id : Option String
deriving DecidableEq, Repr

/-- A project_members-table row in the store (includes org_id). -/
structure MemberTableRow where
  id : String
  org_id : String
  project_id : String
  profile_id : String
  is_active : Option Bool
deriving DecidableEq, Repr

/-- A row of the contractor-path join query: the membership projected to
project_id plus the joined project (null when the foreign row is absent). -/
structure PmJoinRow where
  project_id : String
  projects : Option ProjectRow
deriving DecidableEq, Repr

/-- The external relational store: the three tables the page consumes. -/
structure DB where
  profiles : List ProfileTableRow
  projects : List ProjectRow
  project_members : List MemberTableRow
deriving DecidableEq, Repr

/-- Projection of a profiles-table row to the columns the page selects. -/
def ProfileTableRow.toProfileRow (p : ProfileTableRow) : ProfileRow :=
  ⟨p.id, p.full_name, p.role, p.is_active, p.manager_id⟩

/-- Projection of a project_members-table row to the columns the page selects. -/
def MemberTableRow.toMemberRow (m : MemberTableRow) : MemberRow :=
  ⟨m.id, m.project_id, m.profile_id, m.is_active⟩

/-- Name order on project rows, modelling localeCompare and the store order
by name ascending as code-point order. -/
def byName (a b : ProjectRow) : Prop := a.name ≤ b.name

instance : DecidableRel byName := fun a b => inferInstanceAs (Decidable (a.name ≤ b.name))

instance : IsTotal ProjectRow byName := ⟨fun a b => le_total a.name b.name⟩

instance : IsTrans ProjectRow byName := ⟨fun _ _ _ h h2 => le_trans h h2⟩

/-- Stable sort of a project list by name ascending. -/
def sortByName (l : List ProjectRow) : List ProjectRow := l.insertionSort byName

/-- Store text value of a role column. -/
def roleText : Role → String
  | .admin => "admin"
  | .manager => "manager"
  | .contractor => "contractor"

/-- Ascending order on a nullable text column, nulls last. -/
def nullsLastLe : Option String → Option String → Bool
  | _, none => true
  | none, some _ => false
  | some x, some y => decide (x ≤ y)

/-- Directory order: role ascending (as store text), then full_name ascending. -/
def profileLe (a b : ProfileRow) : Prop :=
  roleText a.role < roleText b.role ∨
    (roleText a.role = roleText b.role ∧ nullsLastLe a.full_name b.full_name = true)

instance : DecidableRel profileLe := fun a b => by
  unfold profileLe
  exact inferInstance

/-- The profiles query of the visibility effect: active profiles of the org,
ordered by role then full name, projected to the selected columns. -/
def selectOrgProfiles (db : DB) (orgId : String) : List ProfileRow :=
  ((db.profiles.filter (fun p => p.org_id == orgId && p.is_active == some true)).map
    ProfileTableRow.toProfileRow).insertionSort profileLe

/-- The privileged-path projects query: all projects of the org, ordered by
name ascending. -/
def selectProjectsForOrg (db : DB) (orgId : String) : List ProjectRow :=
  sortByName (db.projects.filter (fun p => p.org_id == orgId))

/-- The contractor-path join query: the viewer's membership rows with
is_active equal to true, each joined to its project by project_id. -/
def selectPmJoin (db : DB) (viewerId : String) : List PmJoinRow :=
  (db.project_members.filter (fun m => m.profile_id == viewerId && m.is_active == some true)).map
    (fun m => ⟨m.project_id, db.projects.find? (fun p => p.id == m.project_id)⟩)

/-- The membership query of loadMembers: rows of the project with is_active
equal to true, projected to the selected columns. -/
def selectActiveMembers (db : DB) (projectId : String) : List MemberRow :=
  (db.project_members.filter (fun m => m.project_id == projectId && m.is_active == some true)).map
    MemberTableRow.toMemberRow

/-- The update of removeMember: set is_active to false on the rows whose id
column equals memberId; no row is removed. -/
def softDeleteMember (db : DB) (memberId : String) : DB :=
  { db with project_members :=
      (db.project_members.map
        (fun m => if m.id == memberId then { m with is_active := some false } else m)) }

/-- The row the store returns for the insert of createProject: the payload
plus a fresh id, parent_id null, is_active true. -/
def insertProjectRow (freshId orgId nm : String) : ProjectRow :=
  ⟨freshId, orgId, nm, none, some true⟩

/-- The React state of the page. -/
structure PageState where
  projects : List ProjectRow
  orgProfiles : List ProfileRow
  membersByProject : List (String × List MemberRow)
  msg : String
  busy : Bool
  newName : String
deriving DecidableEq, Repr

/-- The JavaScript spread update of a record object keyed by project id:
replace the value in place when the key is present, append otherwise. -/
def recordSet (m : List (String × List MemberRow)) (k : String) (v : List MemberRow) :
    List (String × List MemberRow) :=
  if m.any (fun kv => decide (kv.1 = k)) then m.map (fun kv => if kv.1 = k then (k, v) else kv)
  else m ++ [(k, v)]

/-- Property access on the record object keyed by project id: the value at
the first matching key, if any. -/
def recordGet (m : List (String × List MemberRow)) (k : String) : Option (List MemberRow) :=
  match m with
  | [] => none
  | kv :: t => if kv.1 = k then some kv.2 else recordGet t k

/-- The members list the render uses for a project: the cached entry, or the
empty list when none has been loaded. -/
def membersOf (s : PageState) (projectId : String) : List MemberRow :=
  (recordGet s.membersByProject projectId).getD []

/-- Cumulative message append used by the projects write-back of the
visibility effect. -/
def appendMsg (m e : String) : String := if m = "" then e else m ++ "\n" ++ e

/-- The synchronous start of the visibility effect body: clear the message
buffer. -/
def visibilityStart (s : PageState) : PageState := { s with msg := "" }

/-- Write-back of the profiles fetch: on error set the message and (since the
data of a failed response is null, coerced to the empty list) clear the
directory cache; on success store the rows. -/
def applyProfilesResult (r : Except String (List ProfileRow)) (s : PageState) : PageState :=
  match r with
  | .error e => { s with msg := e, orgProfiles := [] }
  | .ok profs => { s with orgProfiles := profs }

/-- The join projection of the contractor path: keep the joined project of
each row, dropping rows whose join came back null. -/
def joinedProjects (pm : List PmJoinRow) : List ProjectRow :=
  pm.filterMap PmJoinRow.projects

/-- Write-back of the privileged-path projects fetch: on error append the
message and (null data coerced to the empty list) clear the project list;
on success store the rows. -/
def applyProjectsPrivileged (r : Except String (List ProjectRow)) (s : PageState) : PageState :=
  match r with
  | .error e => { s with msg := appendMsg s.msg e, projects := [] }
  | .ok projs => { s with projects := projs }

/-- Write-back of the contractor-path fetch: on error append the message and
clear the project list; on success store the joined projects after the second
client-side filter dropping projects whose is_active is explicitly false. -/
def applyProjectsContractor (r : Except String (List PmJoinRow)) (s : PageState) : PageState :=
  match r with
  | .error e => { s with msg := appendMsg s.msg e, projects := [] }
  | .ok pm =>
      { s with projects := (joinedProjects pm).filter (fun p => p.is_active != some false) }

/-- A write-back guarded by the cancelled flag of the effect closure. -/
def guardedApply (cancelled : Bool) (f : PageState → PageState) (s : PageState) : PageState :=
  if cancelled then s else f s

/-- The asynchronous remainder of the visibility effect after the fetches
resolve: the profiles write-back, then the branch on privileged status, each
write-back guarded by the value of the cancelled flag at its own await point. -/
def visibilityResolvePhase (cProf cProj : Bool) (priv : Bool)
    (profRes : Except String (List ProfileRow))
    (projRes : Except String (List ProjectRow))
    (pmRes : Except String (List PmJoinRow)) (s : PageState) : PageState :=
  let s1 := guardedApply cProf (applyProfilesResult profRes) s
  if priv then guardedApply cProj (applyProjectsPrivileged projRes) s1
  else guardedApply cProj (applyProjectsContractor pmRes) s1

/-- One full run of the visibility effect body. -/
def runVisibilityEffect (cProf cProj : Bool) (priv : Bool)
    (profRes : Except String (List ProfileRow))
    (projRes : Except String (List ProjectRow))
    (pmRes : Except String (List PmJoinRow)) (s : PageState) : PageState :=
  visibilityResolvePhase cProf cProj priv profRes projRes pmRes (visibilityStart s)

/-- The visibility effect with its precondition guard: when org_id or the
viewer id is unresolved the effect body does not run at all. -/
def visibilityEffect (orgId viewerId : Option String) (cProf cProj priv : Bool)
    (profRes : Except String (List ProfileRow))
    (projRes : Except String (List ProjectRow))
    (pmRes : Except String (List PmJoinRow)) (s : PageState) : PageState :=
  match orgId, viewerId with
  | some _, some _ => runVisibilityEffect cProf cProj priv profRes projRes pmRes s
  | _, _ => s

/-- The dependency tuple of the visibility effect. -/
structure VisIdentity where
  org_id : Option String
  viewer_id : Option String
  privileged : Bool
deriving DecidableEq, Repr

/-- The cancelled flag as set by the effect cleanup: true exactly when the
dependency tuple that triggered the run no longer equals the current one. -/
def cancelledFlag (trigger current : VisIdentity) : Bool :=
  decide (trigger ≠ current)

/-- The loadMembers handler: clear the message, then on error report it and
leave the cache untouched, on success replace the entry of the project
wholesale. -/
def loadMembersStep (s : PageState) (projectId : String)
    (r : Except String (List MemberRow)) : PageState :=
  let s0 := { s with msg := "" }
  match r with
  | .error e => { s0 with msg := e }
  | .ok rows => { s0 with membersByProject := recordSet s0.membersByProject projectId rows }

/-- The removeMember handler: clear the message, issue the soft-delete update,
on error report it, on success refresh the members of the project. -/
def removeMemberStep (s : PageState) (projectId : String)
    (updateRes : Except String Unit) (loadRes : Except String (List MemberRow)) : PageState :=
  let s0 := { s with msg := "" }
  match updateRes with
  | .error e => { s0 with msg := e }
  | .ok _ => loadMembersStep s0 projectId loadRes

/-- The insert payload of the addMember handler. -/
structure InsertMemberPayload where
  org_id : Option String
  project_id : String
  profile_id : String
  is_active : Bool
deriving DecidableEq, Repr

/-- The addMember handler, returning the new state and the insert issued to
the store, if any. A blank profile id is a no-op after the message clear. -/
def addMemberStep (s : PageState) (orgId : Option String) (projectId profileId : String)
    (insertRes : Except String Unit) (loadRes : Except String (List MemberRow)) :
    PageState × Option InsertMemberPayload :=
  let s0 := { s with msg := "" }
  if profileId = "" then (s0, none)
  else
    match insertRes with
    | .error e => ({ s0 with msg := e }, some ⟨orgId, projectId, profileId, true⟩)
    | .ok _ => (loadMembersStep s0 projectId loadRes, some ⟨orgId, projectId, profileId, true⟩)

/-- JavaScript string trim, modelled over the character list (the library
String.trim is not kernel-reducible, so an equivalent list-based form is
used). -/
def jsTrim (s : String) : String :=
  ⟨((s.data.dropWhile Char.isWhitespace).reverse.dropWhile Char.isWhitespace).reverse⟩

/-- The insert payload of the createProject handler. -/
structure InsertProjectPayload where
  org_id : String
  name : String
  is_active : Bool
deriving DecidableEq, Repr

/-- The createProject handler, returning the new state and the insert issued
to the store, if any. Guard order as in the source: unresolved org_id first
(silent), then the privilege check (user-visible rejection), then the
trimmed-name check (silent). On success the returned row is merged by
re-sorting the whole list and the input field is cleared. -/
def createProjectStep (s : PageState) (orgId : Option String) (priv : Bool)
    (insertRes : Except String ProjectRow) : PageState × Option InsertProjectPayload :=
  match orgId with
  | none => (s, none)
  | some o =>
    if !priv then ({ s with msg := "Only admin/manager can create projects." }, none)
    else
      let nm := jsTrim s.newName
      if nm = "" then (s, none)
      else
        let s0 := { s with busy := false, msg := "" }
        match insertRes with
        | .error e => ({ s0 with msg := e }, some ⟨o, nm, true⟩)
        | .ok row =>
            ({ s0 with projects := sortByName (s0.projects ++ [row]), newName := "" },
              some ⟨o, nm, true⟩)

/-- The candidate list of the assignment picker for one project: the active
directory, narrowed to the focus profile when one is supplied, minus the
profiles already in the loaded membership set. -/
def candidatePeople (orgProfiles : List ProfileRow) (focusUser : String)
    (members : List MemberRow) : List ProfileRow :=
  ((orgProfiles.filter (fun x => x.is_active != some false)).filter
      (fun x => if focusUser != "" then x.id == focusUser else true)).filter
    (fun x => !(members.any (fun m => m.profile_id == x.id)))

/-- Modelled from the spec: the contractor-visible project set in the words of
the specification, namely the projects joined from the viewer's membership
rows having is_active equal to true, minus those whose is_active is
explicitly false. -/
def contractorVisibleSpec (db : DB) (viewerId : String) : List ProjectRow :=
  ((db.project_members.filter
      (fun m => m.profile_id == viewerId && m.is_active == some true)).filterMap
    (fun m => db.projects.find? (fun p => p.id == m.project_id))).filter
    (fun p => p.is_active != some false)

/-- Modelled from the spec: the candidate list in the words of the
specification, namely the active directory, optionally narrowed to the focus
profile, minus the profiles present in the loaded membership set. -/
def candidatesSpec (orgProfiles : List ProfileRow) (focusUser : String)
    (members : List MemberRow) : List ProfileRow :=
  ((orgProfiles.filter (fun x => x.is_active != some false)).filter
      (fun x => if focusUser != "" then x.id == focusUser else true)).filter
    (fun x => members.all (fun m => m.profile_id != x.id))

/-! Concrete fixtures used by witnesses and counterexamples. -/

/-- An example profile row. -/
def exProfile : ProfileRow := ⟨"p1", some "Alice", .admin, some true, none⟩

/-- An example project row. -/
def exProject : ProjectRow := ⟨"pr1", "org1", "Alpha", none, some true⟩

/-- An example membership-table row. -/
def exMemberTable : MemberTableRow := ⟨"m1", "org1", "pr1", "p1", some true⟩

/-- An example page state with one project and one directory profile. -/
def exState : PageState := ⟨[exProject], [exProfile], [], "", false, ""⟩

/-- An example store. -/
def exDB : DB := ⟨[⟨"p1", "org1", some "Alice", .admin, some true, none⟩], [exProject], [exMemberTable]⟩

/-! Helper lemmas. -/

/-- The join projection of the contractor query, written as one filterMap over
the membership rows. -/
theorem joinedProjects_selectPmJoin (db : DB) (u : String) :
    joinedProjects (selectPmJoin db u)
      = (db.project_members.filter
          (fun m => m.profile_id == u && m.is_active == some true)).filterMap
          (fun m => db.projects.find? (fun p => p.id == m.project_id)) := by
  simp only [joinedProjects, selectPmJoin, List.filterMap_map]
  rfl

/-- Replacing the entry of key k in an association list that contains k makes
a lookup of k return the new value. -/
theorem recordGet_replaceAll (t : List (String × List MemberRow)) (k : String)
    (v : List MemberRow) (h : t.any (fun kv => decide (kv.1 = k)) = true) :
    recordGet (t.map (fun kv => if kv.1 = k then (k, v) else kv)) k = some v := by
  induction t with
  | nil => simp at h
  | cons kv t ih =>
    by_cases hk : kv.1 = k
    · simp [recordGet, hk]
    · have h2 : t.any (fun kv => decide (kv.1 = k)) = true := by
        simpa [List.any_cons, hk] using h
      simp [recordGet, hk, ih h2]

/-- Appending a fresh entry of key k to an association list without an entry
of key k makes a read of k return the new value. -/
theorem recordGet_append (t : List (String × List MemberRow)) (k : String)
    (v : List MemberRow) (h : t.any (fun kv => decide (kv.1 = k)) = false) :
    recordGet (t ++ [(k, v)]) k = some v := by
  induction t with
  | nil => simp [recordGet]
  | cons kv t ih =>
    simp only [List.any_cons, Bool.or_eq_false_iff, decide_eq_false_iff_not] at h
    have h2 : t.any (fun kv => decide (kv.1 = k)) = false := by
      simpa using h.2
    simp [recordGet, h.1, ih h2]

/-- A recordSet update at key k is seen by a read of k. -/
theorem recordGet_recordSet_self (m : List (String × List MemberRow)) (k : String)
    (v : List MemberRow) : recordGet (recordSet m k v) k = some v := by
  unfold recordSet
  cases hany : m.any (fun kv => decide (kv.1 = k)) with
  | true => simpa [hany] using recordGet_replaceAll m k v hany
  | false => simpa [hany] using recordGet_append m k v hany

/-- Replacing the entry of key k leaves reads of other keys unchanged. -/
theorem recordGet_replaceAll_ne (t : List (String × List MemberRow)) (k : String)
    (v : List MemberRow) (q : String) (h : q ≠ k) :
    recordGet (t.map (fun kv => if kv.1 = k then (k, v) else kv)) q = recordGet t q := by
  induction t with
  | nil => rfl
  | cons kv t ih =>
    by_cases hk : kv.1 = k
    · have hq : ¬ k = q := fun e => h e.symm
      simp [recordGet, hk, hq, ih]
    · by_cases hq : kv.1 = q <;> simp [recordGet, hk, hq, h, ih]

/-- Appending a fresh entry of key k leaves reads of other keys unchanged. -/
theorem recordGet_append_ne (t : List (String × List MemberRow)) (k : String)
    (v : List MemberRow) (q : String) (h : q ≠ k) :
    recordGet (t ++ [(k, v)]) q = recordGet t q := by
  induction t with
  | nil =>
    have hq : ¬ k = q := fun e => h e.symm
    simp [recordGet, hq]
  | cons kv t ih => by_cases hq : kv.1 = q <;> simp [recordGet, hq, ih]

/-- A recordSet update at key k leaves reads of other keys unchanged. -/
theorem recordGet_recordSet_ne (m : List (String × List MemberRow)) (k : String)
    (v : List MemberRow) (q : String) (h : q ≠ k) :
    recordGet (recordSet m k v) q = recordGet m q := by
  unfold recordSet
  cases hany : m.any (fun kv => decide (kv.1 = k)) with
  | true => simpa [hany] using recordGet_replaceAll_ne m k v q h
  | false => simpa [hany] using recordGet_append_ne m k v q h

/-! Claim theorems. -/

/-- C1: for a contractor viewer with resolved org and viewer ids, the project
list produced by the visibility effect equals the projects joined from the
viewer's membership rows having is_active = true, with a second client-side
filter dropping every joined project whose is_active is explicitly false
(projects with is_active null or true are kept). -/
theorem contractor_visibility_correct (db : DB) (o u : String) (cProf : Bool)
    (profRes : Except String (List ProfileRow)) (projRes : Except String (List ProjectRow))
    (s : PageState) :
    (visibilityEffect (some o) (some u) cProf false false profRes projRes
        (.ok (selectPmJoin db u)) s).projects = contractorVisibleSpec db u
    ∧ (∀ p : ProjectRow, p ∈ contractorVisibleSpec db u ↔
        (p ∈ (db.project_members.filter
              (fun m => m.profile_id == u && m.is_active == some true)).filterMap
              (fun m => db.projects.find? (fun q => q.id == m.project_id))
          ∧ p.is_active ≠ some false)) := by
  constructor
  · cases profRes <;>
      cases cProf <;>
        simp [visibilityEffect, runVisibilityEffect, visibilityResolvePhase, guardedApply,
          visibilityStart, applyProfilesResult, applyProjectsContractor,
          joinedProjects_selectPmJoin, contractorVisibleSpec]
  · intro p
    simp [contractorVisibleSpec, List.mem_filter, bne_iff_ne]

/-- C2: for a privileged viewer (admin or manager) with resolved org and
viewer ids, the project list produced by the visibility effect equals all
project rows of the org ordered by name ascending, with no membership
filtering and no is_active filtering. -/
theorem privileged_visibility_correct (db : DB) (o u : String) (cProf : Bool)
    (profRes : Except String (List ProfileRow)) (pmRes : Except String (List PmJoinRow))
    (s : PageState) :
    (visibilityEffect (some o) (some u) cProf false true profRes
        (.ok (selectProjectsForOrg db o)) pmRes s).projects = selectProjectsForOrg db o
    ∧ (selectProjectsForOrg db o).Perm (db.projects.filter (fun p => p.org_id == o))
    ∧ List.Sorted byName (selectProjectsForOrg db o)
    ∧ (∀ p ∈ db.projects, p.org_id = o → p ∈ selectProjectsForOrg db o)
    ∧ (∀ ms : List MemberTableRow,
        selectProjectsForOrg { db with project_members := ms } o
          = selectProjectsForOrg db o) := by
  refine ⟨?_, ?_, ?_, ?_, fun ms => rfl⟩
  · cases profRes <;>
      cases cProf <;>
        simp [visibilityEffect, runVisibilityEffect, visibilityResolvePhase, guardedApply,
          visibilityStart, applyProfilesResult, applyProjectsPrivileged]
  · simpa [selectProjectsForOrg, sortByName] using
      List.perm_insertionSort byName (db.projects.filter (fun p => p.org_id == o))
  · simpa [selectProjectsForOrg, sortByName] using
      List.sorted_insertionSort byName (db.projects.filter (fun p => p.org_id == o))
  · intro p hp hpo
    simp [selectProjectsForOrg, sortByName, List.mem_insertionSort, List.mem_filter]
    exact ⟨hp, by simp [hpo]⟩

/-- C4: a visibility resolution whose triggering identity tuple no longer
equals the current one is cancelled at both write-back points, so its stale
results are never written: the state is returned unchanged. -/
theorem visibility_cancellation (trigger current : VisIdentity) (h : trigger ≠ current)
    (priv : Bool) (profRes : Except String (List ProfileRow))
    (projRes : Except String (List ProjectRow)) (pmRes : Except String (List PmJoinRow))
    (s : PageState) :
    visibilityResolvePhase (cancelledFlag trigger current) (cancelledFlag trigger current)
      priv profRes projRes pmRes s = s := by
  have hc : cancelledFlag trigger current = true := by simp [cancelledFlag, h]
  simp [visibilityResolvePhase, guardedApply, hc]

/-- Witness for C4: a contractor-path resolution superseded by an identity
change to a privileged viewer leaves the state untouched. -/
theorem visibility_cancellation_witness :
    visibilityResolvePhase
      (cancelledFlag ⟨some "org1", some "viewerB", false⟩ ⟨some "org1", some "viewerA", true⟩)
      (cancelledFlag ⟨some "org1", some "viewerB", false⟩ ⟨some "org1", some "viewerA", true⟩)
      false (.ok []) (.ok []) (.ok []) exState = exState :=
  visibility_cancellation _ _ (by decide) false (.ok []) (.ok []) (.ok []) exState

/-- C10: with an unresolved org id, createProject is a complete silent no-op
for every caller regardless of role: no store operation, no state change, and
in particular no authorization-rejection message for a non-privileged caller,
because the org guard runs before the privilege check. -/
theorem createProject_unresolved_org (s : PageState) (priv : Bool)
    (r : Except String ProjectRow) :
    createProjectStep s none priv r = (s, none)
    ∧ (createProjectStep s none false r).1.msg = s.msg :=
  ⟨rfl, rfl⟩

/-- C7: loadMembers fetches the membership rows with is_active = true of the
project; on success it replaces the cached entry of that project wholesale,
regardless of the prior entry; on failure it reports the store error message
and leaves the membership map untouched. -/
theorem loadMembers_correct (db : DB) (s : PageState) (pid e : String) :
    recordGet (loadMembersStep s pid (.ok (selectActiveMembers db pid))).membersByProject pid
        = some (selectActiveMembers db pid)
    ∧ (∀ r : MemberRow, r ∈ selectActiveMembers db pid ↔
        ∃ m, m ∈ db.project_members ∧ m.project_id = pid ∧ m.is_active = some true
          ∧ m.toMemberRow = r)
    ∧ (loadMembersStep s pid (.error e)).msg = e
    ∧ (loadMembersStep s pid (.error e)).membersByProject = s.membersByProject := by
  refine ⟨?_, ?_, rfl, rfl⟩
  · simp [loadMembersStep, recordGet_recordSet_self]
  · intro r
    simp [selectActiveMembers, List.mem_map, List.mem_filter, and_assoc]

/-- C9: a successful loadMembers modifies only the membership-map entry of
its own project: entries of every other project, the project list, the
directory cache, the name input and the busy flag are unchanged. -/
theorem loadMembers_frame (s : PageState) (pid : String) (rows : List MemberRow) :
    (∀ q, q ≠ pid →
        recordGet (loadMembersStep s pid (.ok rows)).membersByProject q
          = recordGet s.membersByProject q)
    ∧ (loadMembersStep s pid (.ok rows)).projects = s.projects
    ∧ (loadMembersStep s pid (.ok rows)).orgProfiles = s.orgProfiles
    ∧ (loadMembersStep s pid (.ok rows)).newName = s.newName
    ∧ (loadMembersStep s pid (.ok rows)).busy = s.busy := by
  refine ⟨?_, rfl, rfl, rfl, rfl⟩
  intro q hq
  simp [loadMembersStep, recordGet_recordSet_ne _ _ _ _ hq]

/-- Witness for C9 at a concrete state, project and other key. -/
theorem loadMembers_frame_witness :
    recordGet (loadMembersStep exState "pr1" (.ok [])).membersByProject "other"
      = recordGet exState.membersByProject "other" :=
  (loadMembers_frame exState "pr1" []).1 "other" (by decide)

/-- C3 counterexample: a failing profiles fetch and a failing projects fetch
of the visibility effect do not leave the caches at their last-known-good
values; both the directory cache and the project list are reset to empty. -/
theorem error_last_known_good_counterexample :
    (visibilityResolvePhase false false true (.error "db down") (.error "db down") (.ok [])
        exState).orgProfiles = []
    ∧ (visibilityResolvePhase false false true (.error "db down") (.error "db down") (.ok [])
        exState).projects = []
    ∧ exState.orgProfiles ≠ [] ∧ exState.projects ≠ [] :=
  ⟨rfl, rfl, by decide, by decide⟩

/-- C3 amended: store failures of the Membership Manager operations (load,
add, remove) and of the Project Creator leave the project list, directory
cache and membership map at their last-known-good values; the Visibility
Resolver however resets the directory cache to empty on a failed profiles
fetch and the project list to empty on a failed projects fetch (the null data
of a failed response is coerced to an empty list), while its runs never touch
the membership map. -/
theorem error_state_policy_amended (s : PageState) (pid e : String)
    (orgId : Option String) (profileId o : String) (priv : Bool)
    (lr : Except String (List MemberRow))
    (profRes : Except String (List ProfileRow)) (projRes : Except String (List ProjectRow))
    (pmRes : Except String (List PmJoinRow)) :
    ((loadMembersStep s pid (.error e)).membersByProject = s.membersByProject
      ∧ (loadMembersStep s pid (.error e)).projects = s.projects
      ∧ (loadMembersStep s pid (.error e)).orgProfiles = s.orgProfiles)
    ∧ ((removeMemberStep s pid (.error e) lr).membersByProject = s.membersByProject
      ∧ (removeMemberStep s pid (.error e) lr).projects = s.projects
      ∧ (removeMemberStep s pid (.error e) lr).orgProfiles = s.orgProfiles)
    ∧ ((addMemberStep s orgId pid profileId (.error e) lr).1.membersByProject
          = s.membersByProject
      ∧ (addMemberStep s orgId pid profileId (.error e) lr).1.projects = s.projects
      ∧ (addMemberStep s orgId pid profileId (.error e) lr).1.orgProfiles = s.orgProfiles)
    ∧ ((createProjectStep s (some o) priv (.error e)).1.projects = s.projects
      ∧ (createProjectStep s (some o) priv (.error e)).1.membersByProject = s.membersByProject
      ∧ (createProjectStep s (some o) priv (.error e)).1.orgProfiles = s.orgProfiles
      ∧ (createProjectStep s (some o) priv (.error e)).1.newName = s.newName)
    ∧ ((visibilityResolvePhase false false priv (.error e) projRes pmRes s).orgProfiles = []
      ∧ (visibilityResolvePhase false false true profRes (.error e) pmRes s).projects = []
      ∧ (visibilityResolvePhase false false false profRes projRes (.error e) s).projects = []
      ∧ (runVisibilityEffect false false priv profRes projRes pmRes s).membersByProject
          = s.membersByProject) := by
  refine ⟨⟨rfl, rfl, rfl⟩, ⟨rfl, rfl, rfl⟩, ?_, ?_, ?_, ?_, ?_, ?_⟩
  · by_cases hb : profileId = "" <;> simp [addMemberStep, hb]
  · cases priv
    · simp [createProjectStep]
    · by_cases hn : jsTrim s.newName = "" <;> simp [createProjectStep, hn]
  · cases priv <;> cases projRes <;> cases pmRes <;>
      simp [visibilityResolvePhase, guardedApply, applyProfilesResult,
        applyProjectsPrivileged, applyProjectsContractor]
  · cases profRes <;>
      simp [visibilityResolvePhase, guardedApply, applyProfilesResult, applyProjectsPrivileged]
  · cases profRes <;>
      simp [visibilityResolvePhase, guardedApply, applyProfilesResult, applyProjectsContractor]
  · cases priv <;> cases profRes <;> cases projRes <;> cases pmRes <;>
      simp [runVisibilityEffect, visibilityStart, visibilityResolvePhase, guardedApply,
        applyProfilesResult, applyProjectsPrivileged, applyProjectsContractor]

/-- Negated any-membership equals the all-quantified disequality filter used
in the spec-side candidate definition. -/
theorem not_any_eq_all_bne (members : List MemberRow) (i : String) :
    (!(members.any (fun m => m.profile_id == i))) = members.all (fun m => m.profile_id != i) := by
  induction members with
  | nil => rfl
  | cons m t ih => simp [List.any_cons, List.all_cons, Bool.not_or, ih, bne]

/-- C5: the candidate list equals the active directory, narrowed to the focus
profile when one is supplied, minus the profiles of the loaded membership
set; with no loaded membership set the subtracted set is empty, so the
candidates are the full narrowed active directory; no profile of a loaded
membership set appears among the candidates; and the candidate order is
inherited from the directory. -/
theorem candidates_correct (profs : List ProfileRow) (focus : String) (s : PageState)
    (pid : String) :
    candidatePeople profs focus (membersOf s pid) = candidatesSpec profs focus (membersOf s pid)
    ∧ (recordGet s.membersByProject pid = none →
        candidatePeople profs focus (membersOf s pid)
          = (profs.filter (fun x => x.is_active != some false)).filter
              (fun x => if focus != "" then x.id == focus else true))
    ∧ (∀ x ∈ candidatePeople profs focus (membersOf s pid),
        ∀ m ∈ membersOf s pid, m.profile_id ≠ x.id)
    ∧ (candidatePeople profs focus (membersOf s pid)).Sublist profs := by
  refine ⟨?_, ?_, ?_, ?_⟩
  · unfold candidatePeople candidatesSpec
    exact List.filter_congr (fun x _ => not_any_eq_all_bne (membersOf s pid) x.id)
  · intro h
    simp [candidatePeople, membersOf, h]
  · intro x hx m hm
    rcases List.mem_filter.mp hx with ⟨-, hpred⟩
    simp only [Bool.not_eq_true', List.any_eq_false] at hpred
    intro he
    simpa [he] using hpred m hm
  · unfold candidatePeople
    exact (List.filter_sublist _).trans ((List.filter_sublist _).trans (List.filter_sublist _))

/-- Witness for C5: with no membership loaded for the project, the candidates
are the full active directory. -/
theorem candidates_correct_witness :
    candidatePeople [exProfile] "" (membersOf exState "pr1")
      = ([exProfile].filter (fun x => x.is_active != some false)).filter
          (fun x => if ("" : String) != "" then x.id == "" else true) :=
  (candidates_correct [exProfile] "" exState "pr1").2.1 (by decide)

/-- C6: removeMember issues an update setting is_active to false on the
membership row selected by its own id, never a delete: the row survives in
the store soft-deleted, the table length is unchanged, rows with other ids
are untouched, the removed row is absent from the refreshed active set, and
the page caches that refreshed set for the project. -/
theorem removeMember_soft_delete (db : DB) (pid mid : String) (s : PageState)
    (m : MemberTableRow) (hm : m ∈ db.project_members) (hid : m.id = mid) :
    ({ m with is_active := some false } : MemberTableRow)
        ∈ (softDeleteMember db mid).project_members
    ∧ (softDeleteMember db mid).project_members.length = db.project_members.length
    ∧ (∀ m2, m2 ∈ db.project_members → m2.id ≠ mid
        → m2 ∈ (softDeleteMember db mid).project_members)
    ∧ (∀ r, r ∈ selectActiveMembers (softDeleteMember db mid) pid → r.id ≠ mid)
    ∧ recordGet (removeMemberStep s pid (.ok ())
          (.ok (selectActiveMembers (softDeleteMember db mid) pid))).membersByProject pid
        = some (selectActiveMembers (softDeleteMember db mid) pid) := by
  refine ⟨?_, ?_, ?_, ?_, ?_⟩
  · have h1 := List.mem_map_of_mem
        (fun x : MemberTableRow =>
          if x.id == mid then { x with is_active := some false } else x) hm
    simpa [softDeleteMember, hid] using h1
  · simp [softDeleteMember]
  · intro m2 hm2 hne
    have h1 := List.mem_map_of_mem
        (fun x : MemberTableRow =>
          if x.id == mid then { x with is_active := some false } else x) hm2
    simpa [softDeleteMember, hne] using h1
  · intro r hr
    intro hrid
    unfold selectActiveMembers at hr
    rcases List.mem_map.mp hr with ⟨a, ha, har⟩
    rcases List.mem_filter.mp ha with ⟨hamem, hq⟩
    unfold softDeleteMember at hamem
    rcases List.mem_map.mp hamem with ⟨b, hb, hba⟩
    have hact : a.is_active = some true := by
      simp only [Bool.and_eq_true, beq_iff_eq] at hq
      exact hq.2
    have haid : a.id = mid := by
      rw [← har] at hrid
      simpa [MemberTableRow.toMemberRow] using hrid
    by_cases hbid : b.id = mid
    · rw [← hba] at hact
      simp [hbid] at hact
    · rw [← hba] at haid
      simp [hbid] at haid
  · simp [removeMemberStep, loadMembersStep, recordGet_recordSet_self]

/-- Witness for C6 at a concrete store: the removed membership row survives
soft-deleted. -/
theorem removeMember_soft_delete_witness :
    ({ exMemberTable with is_active := some false } : MemberTableRow)
      ∈ (softDeleteMember exDB "m1").project_members :=
  (removeMember_soft_delete exDB "pr1" "m1" exState exMemberTable (by decide) rfl).1

/-- C8: privileged creation with a non-blank trimmed name inserts the project
with is_active = true and on success merges the returned row by re-sorting
the whole list by name ascending and clears the input; on failure it reports
the error and leaves list and input unchanged; a whitespace-only name is a
silent no-op with no insert; a non-privileged caller gets the rejection
message and no store operation. -/
theorem createProject_correct (s : PageState) (o fid e : String)
    (r : Except String ProjectRow) :
    (jsTrim s.newName ≠ "" →
        createProjectStep s (some o) true (.ok (insertProjectRow fid o (jsTrim s.newName)))
          = ({ s with
                busy := false
                msg := ""
                projects :=
                  sortByName (s.projects ++ [insertProjectRow fid o (jsTrim s.newName)])
                newName := "" },
              some ⟨o, jsTrim s.newName, true⟩))
    ∧ (insertProjectRow fid o (jsTrim s.newName)).is_active = some true
    ∧ List.Sorted byName (sortByName (s.projects ++ [insertProjectRow fid o (jsTrim s.newName)]))
    ∧ (sortByName (s.projects ++ [insertProjectRow fid o (jsTrim s.newName)])).Perm
        (s.projects ++ [insertProjectRow fid o (jsTrim s.newName)])
    ∧ (jsTrim s.newName ≠ "" →
        createProjectStep s (some o) true (.error e)
          = ({ s with busy := false, msg := e }, some ⟨o, jsTrim s.newName, true⟩))
    ∧ (jsTrim s.newName = "" → createProjectStep s (some o) true r = (s, none))
    ∧ createProjectStep s (some o) false r
        = ({ s with msg := "Only admin/manager can create projects." }, none) := by
  refine ⟨?_, rfl, ?_, ?_, ?_, ?_, ?_⟩
  · intro h
    simp [createProjectStep, h]
  · simpa [sortByName] using
      List.sorted_insertionSort byName (s.projects ++ [insertProjectRow fid o (jsTrim s.newName)])
  · simpa [sortByName] using
      List.perm_insertionSort byName (s.projects ++ [insertProjectRow fid o (jsTrim s.newName)])
  · intro h
    simp [createProjectStep, h]
  · intro h
    simp [createProjectStep, h]
  · rfl

/-- An example page state with a padded name typed into the creation input. -/
def exStateCreate : PageState := ⟨[], [], [], "", false, "  Beta "⟩

/-- Witness for C8: a privileged successful creation from a padded input
merges the trimmed-name row and clears the input. -/
theorem createProject_correct_witness :
    createProjectStep exStateCreate (some "org1") true
        (.ok (insertProjectRow "id9" "org1" "Beta"))
      = ({ exStateCreate with
            busy := false
            msg := ""
            projects := sortByName ([] ++ [insertProjectRow "id9" "org1" "Beta"])
            newName := "" },
          some ⟨"org1", "Beta", true⟩) :=
  (createProject_correct exStateCreate "org1" "id9" "boom" (.error "x")).1 (by decide)

end ProjectsPage
